import Mathlib

/-!
Shallow embedding of the snapshot-middleware dispatch core of the Rojo
fork (src/snapshot_middleware/mod.rs): the init candidate resolver
(get_init_path), the transformer selector (get_transformer) and the
dispatch engine (snapshot_from_vfs), together with proofs of the spec
claims about them.

Paths are modelled as lists of components; only the final component
(the file name) is ever inspected, matching the source. The virtual
filesystem is modelled as a probe function returning
Except String (Option Metadata), i.e. the already not-found-folded
probe of the memofs abstraction (with_not_found), where ok none means
the path does not exist. External content transformers are out of
scope in the source; the engine decision is modelled as an Outcome
recording which external transformer call (if any) the engine
dispatches to, and a second layer (run) forwards an arbitrary
transformer interpretation unchanged, matching the source returning
the transformer result unmodified.
-/

namespace Rojo

/-- The closed set of transformer variants, from crate::snapshot::Transformer
as used by the match arms of mod.rs, with the open-ended Other carrying an
unrecognized override identifier. -/
inductive Transformer where
  | Project
  | LuauModule
  | LuauServer
  | LuauClient
  | Json
  | JsonModel
  | Toml
  | Csv
  | Plain
  | Rbxmx
  | Rbxm
  | Ignore
  | Other (name : String)
deriving DecidableEq

/-- ScriptType from lua.rs as used by the dispatch arms. -/
inductive ScriptType where
  | Module
  | Server
  | Client
deriving DecidableEq

/-- A filesystem path, as a list of components; only the last component
(the file name) is consulted by the dispatch core. -/
abbrev Path := List String

/-- Filesystem metadata; the core only consults whether the entry is a
directory. -/
structure Metadata where
  is_dir : Bool
deriving DecidableEq

/-- The virtual filesystem probe, already not-found-folded: ok none means
the path does not exist, error means a genuine I/O failure. -/
abbrev Vfs := Path → Except String (Option Metadata)

/-- Modelled from the spec: the override context
(InstanceContext::get_transformer_override, not in src) is a read-only
mapping from path to an optional forced transformer. -/
abbrev InstanceContext := Path → Option Transformer

/-- Ends-with on lists of characters: the last t.length characters equal t. -/
def listEndsWith (l t : List Char) : Bool :=
  decide (l.drop (l.length - t.length) = t)

/-- Modelled from the spec: the suffix matcher predicate, does this string
end with the given suffix (str::ends_with). -/
def strEndsWith (s t : String) : Bool :=
  listEndsWith s.data t.data

/-- Modelled from the spec: strip a suffix from a string, the suffix having
been checked present. -/
def strTrimEnd (s t : String) : String :=
  String.mk (s.data.take (s.data.length - t.data.length))

/-- The file name of a path: its final component (Path::file_name). -/
def fileName (p : Path) : Option String :=
  p.getLast?

/-- Modelled from the spec: PathExt::file_name_ends_with (util.rs, not in
src) tests whether the file name of the path ends with the given suffix. -/
def file_name_ends_with (p : Path) (t : String) : Bool :=
  match fileName p with
  | some n => strEndsWith n t
  | none => false

/-- Modelled from the spec: PathExt::file_name_trim_end (util.rs, not in
src) strips the given suffix from the file name, failing (none) if absent. -/
def file_name_trim_end (p : Path) (t : String) : Option String :=
  match fileName p with
  | some n => if strEndsWith n t then some (strTrimEnd n t) else none
  | none => none

/-- Joining one component onto a path (Path::join). -/
def pathJoin (p : Path) (s : String) : Path :=
  p ++ [s]

/-- Display of a path for error messages. -/
def pathDisplay (p : Path) : String :=
  String.intercalate "/" p

/-- get_init_path: probes the fixed candidate file names in the given
directory, in source order, and returns the first existing one. -/
def getInitPath (vfs : Vfs) (p : Path) : Except String (Option Path) :=
  match vfs (pathJoin p "default.project.json") with
  | .error e => .error e
  | .ok (some _) => .ok (some (pathJoin p "default.project.json"))
  | .ok none =>
  match vfs (pathJoin p "init.luau") with
  | .error e => .error e
  | .ok (some _) => .ok (some (pathJoin p "init.luau"))
  | .ok none =>
  match vfs (pathJoin p "init.lua") with
  | .error e => .error e
  | .ok (some _) => .ok (some (pathJoin p "init.lua"))
  | .ok none =>
  match vfs (pathJoin p "init.server.luau") with
  | .error e => .error e
  | .ok (some _) => .ok (some (pathJoin p "init.server.luau"))
  | .ok none =>
  match vfs (pathJoin p "init.server.lua") with
  | .error e => .error e
  | .ok (some _) => .ok (some (pathJoin p "init.server.lua"))
  | .ok none =>
  match vfs (pathJoin p "init.client.luau") with
  | .error e => .error e
  | .ok (some _) => .ok (some (pathJoin p "init.client.luau"))
  | .ok none =>
  match vfs (pathJoin p "init.client.lua") with
  | .error e => .error e
  | .ok (some _) => .ok (some (pathJoin p "init.client.lua"))
  | .ok none =>
  match vfs (pathJoin p "init.csv") with
  | .error e => .error e
  | .ok (some _) => .ok (some (pathJoin p "init.csv"))
  | .ok none => .ok none

/-- get_transformer: override rules in the context take precedence, then
the suffix chain in source order. -/
def getTransformer (context : InstanceContext) (p : Path) : Option Transformer :=
  match context p with
  | some rojoType => some rojoType
  | none =>
    if file_name_ends_with p ".server.lua" || file_name_ends_with p ".server.luau" then
      some .LuauServer
    else if file_name_ends_with p ".client.lua" || file_name_ends_with p ".client.luau" then
      some .LuauClient
    else if file_name_ends_with p ".lua" || file_name_ends_with p ".luau" then
      some .LuauModule
    else if file_name_ends_with p ".project.json" then
      some .Project
    else if file_name_ends_with p ".model.json" then
      some .JsonModel
    else if file_name_ends_with p ".meta.json" then
      none
    else if file_name_ends_with p ".json" then
      some .Json
    else if file_name_ends_with p ".toml" then
      some .Toml
    else if file_name_ends_with p ".csv" then
      some .Csv
    else if file_name_ends_with p ".txt" then
      some .Plain
    else if file_name_ends_with p ".rbxmx" then
      some .Rbxmx
    else if file_name_ends_with p ".rbxm" then
      some .Rbxm
    else
      none

/-- An invocation of an external content transformer, with its arguments
as passed by snapshot_from_vfs. -/
inductive ExtCall where
  | project (p : Path)
  | luaInit (p : Path) (s : ScriptType)
  | csvInit (p : Path)
  | dir (p : Path)
  | lua (p : Path) (s : Option ScriptType)
  | jsonModel (p : Path)
  | json (p : Path)
  | toml (p : Path)
  | csv (p : Path)
  | txt (p : Path)
  | rbxmx (p : Path)
  | rbxm (p : Path)
deriving DecidableEq

/-- The decision of the engine: either no instance, or dispatch to exactly one
external transformer call. -/
inductive Outcome where
  | noInstance
  | call (c : ExtCall)
deriving DecidableEq

/-- Modelled from the spec: the script-name computation used (but not
defined) in the file branch of snapshot_from_vfs; reconstructed per the
design notes as stripping a recognized script extension, parallel to the
csv handling shown. -/
def script_name (p : Path) : Option String :=
  match file_name_trim_end p ".lua" with
  | some n => some n
  | none => file_name_trim_end p ".luau"

/-- The csv-name computation of the file branch of snapshot_from_vfs. -/
def csv_name (p : Path) : Option String :=
  file_name_trim_end p ".csv"

/-- snapshot_from_vfs, decision layer: which external transformer call (if
any) the engine dispatches to, or a fatal error. Errors from probes
propagate; ok none from a probe is a normal no-instance outcome. -/
def dispatch (context : InstanceContext) (vfs : Vfs) (p : Path) :
    Except String Outcome :=
  match vfs p with
  | .error e => .error e
  | .ok none => .ok .noInstance
  | .ok (some meta) =>
    if meta.is_dir then
      match getInitPath vfs p with
      | .error e => .error e
      | .ok (some initPath) =>
        match getTransformer context initPath with
        | some .Project => .ok (.call (.project initPath))
        | some .LuauModule => .ok (.call (.luaInit initPath .Module))
        | some .LuauServer => .ok (.call (.luaInit initPath .Server))
        | some .LuauClient => .ok (.call (.luaInit initPath .Client))
        | some .Csv => .ok (.call (.csvInit initPath))
        | some (.Other rojoTypeString) =>
            .error ("Unknown rojo type: " ++ rojoTypeString)
        | _ => .ok (.call (.dir p))
      | .ok none => .ok (.call (.dir p))
    else
      match fileName p with
      | none => .error ("Path had an invalid file name: " ++ pathDisplay p)
      | some _ =>
        match script_name p with
        | some n =>
          if n = "init" || n = "init.client" || n = "init.server" then
            .ok .noInstance
          else
            .ok (.call (.lua p none))
        | none =>
        if file_name_ends_with p ".project.json" then
          .ok (.call (.project p))
        else if file_name_ends_with p ".model.json" then
          .ok (.call (.jsonModel p))
        else if file_name_ends_with p ".meta.json" then
          .ok .noInstance
        else if file_name_ends_with p ".json" then
          .ok (.call (.json p))
        else if file_name_ends_with p ".toml" then
          .ok (.call (.toml p))
        else
          match csv_name p with
          | some n =>
            if n = "init" then
              .ok .noInstance
            else
              .ok (.call (.csv p))
          | none =>
            if file_name_ends_with p ".txt" then
              .ok (.call (.txt p))
            else if file_name_ends_with p ".rbxmx" then
              .ok (.call (.rbxmx p))
            else if file_name_ends_with p ".rbxm" then
              .ok (.call (.rbxm p))
            else
              match getTransformer context p with
              | some .Project => .ok (.call (.project p))
              | some .JsonModel => .ok (.call (.jsonModel p))
              | some .Json => .ok (.call (.json p))
              | some .Toml => .ok (.call (.toml p))
              | some .Csv => .ok (.call (.csv p))
              | some .Plain => .ok (.call (.txt p))
              | some .LuauModule => .ok (.call (.lua p (some .Module)))
              | some .LuauServer => .ok (.call (.lua p (some .Server)))
              | some .LuauClient => .ok (.call (.lua p (some .Client)))
              | some .Rbxmx => .ok (.call (.rbxmx p))
              | some .Rbxm => .ok (.call (.rbxm p))
              | some (.Other rojoTypeString) =>
                  .error ("Unknown rojo type: " ++ rojoTypeString)
              | none => .ok .noInstance
              | some .Ignore => .ok .noInstance

/-- snapshot_from_vfs, value layer: the engine returns the result of the
invoked transformer unchanged; its own no-instance outcome is ok none. -/
def run {α : Type} (interp : ExtCall → Except String (Option α))
    (context : InstanceContext) (vfs : Vfs) (p : Path) :
    Except String (Option α) :=
  match dispatch context vfs p with
  | .error e => .error e
  | .ok .noInstance => .ok none
  | .ok (.call c) => interp c

/-- The external transformer calls of an engine decision: at most one. -/
def outcomeCalls : Outcome → List ExtCall
  | .noInstance => []
  | .call c => [c]

/-- The init candidate file names, in the order the spec fixes them. -/
def initCandidates : List String :=
  ["default.project.json", "init.luau", "init.lua",
   "init.server.luau", "init.server.lua",
   "init.client.luau", "init.client.lua", "init.csv"]

/-- The suffix patterns of the transformer selector paired with their
variants, in the most-specific-first order the spec fixes (a metadata
match yielding none). -/
def suffixTable : List (String × Option Transformer) :=
  [(".server.lua", some .LuauServer), (".server.luau", some .LuauServer),
   (".client.lua", some .LuauClient), (".client.luau", some .LuauClient),
   (".lua", some .LuauModule), (".luau", some .LuauModule),
   (".project.json", some .Project), (".model.json", some .JsonModel),
   (".meta.json", none), (".json", some .Json), (".toml", some .Toml),
   (".csv", some .Csv), (".txt", some .Plain),
   (".rbxmx", some .Rbxmx), (".rbxm", some .Rbxm)]

/-- First match of a path against an ordered suffix table. -/
def firstMatch (p : Path) : List (String × Option Transformer) → Option Transformer
  | [] => none
  | (s, t) :: rest => if file_name_ends_with p s then t else firstMatch p rest

/-- The spec-side selector: the first suffix pattern that matches, in
table order. -/
def selectBySuffix (p : Path) : Option Transformer :=
  firstMatch p suffixTable

/-- Metadata of a plain file. -/
def mFile : Metadata :=
  ⟨false⟩

/-- Metadata of a directory. -/
def mDir : Metadata :=
  ⟨true⟩

/-- The empty override context. -/
def ctxNone : InstanceContext :=
  fun _ => none

/-- An override context forcing one transformer at one path. -/
def ctxSingle (target : Path) (t : Transformer) : InstanceContext :=
  fun q => if q = target then some t else none

/-- A filesystem whose probes never fail, given by a total metadata map. -/
def vfsOf (pf : Path → Option Metadata) : Vfs :=
  fun q => .ok (pf q)

/-- A metadata map with a single existing entry. -/
def pfSingle (target : Path) (m : Metadata) : Path → Option Metadata :=
  fun q => if q = target then some m else none

lemma listEndsWith_iff {l t : List Char} :
    listEndsWith l t = true ↔ l.drop (l.length - t.length) = t := by
  simp [listEndsWith]

lemma length_le_of_listEndsWith {l t : List Char} (h : listEndsWith l t = true) :
    t.length ≤ l.length := by
  rw [listEndsWith_iff] at h
  have hlen : (l.drop (l.length - t.length)).length = t.length := by rw [h]
  rw [List.length_drop] at hlen
  omega

lemma listEndsWith_of_both {n a b : List Char} (ha : listEndsWith n a = true)
    (hb : listEndsWith n b = true) (hl : a.length ≤ b.length) :
    listEndsWith b a = true := by
  have hla := length_le_of_listEndsWith ha
  have hlb := length_le_of_listEndsWith hb
  rw [listEndsWith_iff] at ha hb ⊢
  calc b.drop (b.length - a.length)
      = (n.drop (n.length - b.length)).drop (b.length - a.length) := by rw [hb]
    _ = n.drop ((n.length - b.length) + (b.length - a.length)) :=
        List.drop_drop _ _ _
    _ = n.drop (n.length - a.length) := by congr 1; omega
    _ = a := ha

lemma ends_excl {p : Path} {a b : String} (ha : file_name_ends_with p a = true)
    (hab : listEndsWith a.data b.data = false)
    (hba : listEndsWith b.data a.data = false) :
    file_name_ends_with p b = false := by
  cases hn : fileName p with
  | none => simp [file_name_ends_with, hn]
  | some n =>
    simp only [file_name_ends_with, hn, strEndsWith] at ha ⊢
    cases hb2 : listEndsWith n.data b.data with
    | false => rfl
    | true =>
      exfalso
      rcases Nat.le_total a.data.length b.data.length with h | h
      · exact absurd (listEndsWith_of_both ha hb2 h) (by simp [hba])
      · exact absurd (listEndsWith_of_both hb2 ha h) (by simp [hab])

lemma fileName_some_of_ends {p : Path} {t : String}
    (h : file_name_ends_with p t = true) : ∃ m, fileName p = some m := by
  cases hn : fileName p with
  | none => simp [file_name_ends_with, hn] at h
  | some n => exact ⟨n, rfl⟩

lemma trim_some_ends {p : Path} {t n : String}
    (h : file_name_trim_end p t = some n) : file_name_ends_with p t = true := by
  cases hn : fileName p with
  | none => simp [file_name_trim_end, hn] at h
  | some m =>
    simp only [file_name_trim_end, hn] at h
    simp only [file_name_ends_with, hn]
    cases he : strEndsWith m t with
    | true => rfl
    | false => simp [he] at h

lemma trim_none_of_not_ends {p : Path} {t : String}
    (h : file_name_ends_with p t = false) : file_name_trim_end p t = none := by
  cases hn : fileName p with
  | none => simp [file_name_trim_end, hn]
  | some m =>
    simp only [file_name_ends_with, hn] at h
    simp [file_name_trim_end, hn, h]

lemma script_name_none_of_not_ends {p : Path}
    (h1 : file_name_ends_with p ".lua" = false)
    (h2 : file_name_ends_with p ".luau" = false) : script_name p = none := by
  simp [script_name, trim_none_of_not_ends h1, trim_none_of_not_ends h2]

lemma getTransformer_of_override {context : InstanceContext} {p : Path}
    {t : Transformer} (h : context p = some t) :
    getTransformer context p = some t := by
  simp [getTransformer, h]

lemma getInitPath_find (vfs : Vfs) (pf : Path → Option Metadata) (p : Path)
    (h : ∀ q, vfs q = .ok (pf q)) :
    getInitPath vfs p =
      .ok ((initCandidates.find?
        (fun c => (pf (pathJoin p c)).isSome)).map (pathJoin p)) := by
  cases h1 : pf (pathJoin p "default.project.json") with
  | some m => simp [getInitPath, h, h1, initCandidates, List.find?]
  | none =>
  cases h2 : pf (pathJoin p "init.luau") with
  | some m => simp [getInitPath, h, h1, h2, initCandidates, List.find?]
  | none =>
  cases h3 : pf (pathJoin p "init.lua") with
  | some m => simp [getInitPath, h, h1, h2, h3, initCandidates, List.find?]
  | none =>
  cases h4 : pf (pathJoin p "init.server.luau") with
  | some m => simp [getInitPath, h, h1, h2, h3, h4, initCandidates, List.find?]
  | none =>
  cases h5 : pf (pathJoin p "init.server.lua") with
  | some m => simp [getInitPath, h, h1, h2, h3, h4, h5, initCandidates, List.find?]
  | none =>
  cases h6 : pf (pathJoin p "init.client.luau") with
  | some m =>
    simp [getInitPath, h, h1, h2, h3, h4, h5, h6, initCandidates, List.find?]
  | none =>
  cases h7 : pf (pathJoin p "init.client.lua") with
  | some m =>
    simp [getInitPath, h, h1, h2, h3, h4, h5, h6, h7, initCandidates, List.find?]
  | none =>
  cases h8 : pf (pathJoin p "init.csv") with
  | some m =>
    simp [getInitPath, h, h1, h2, h3, h4, h5, h6, h7, h8, initCandidates,
      List.find?]
  | none =>
    simp [getInitPath, h, h1, h2, h3, h4, h5, h6, h7, h8, initCandidates,
      List.find?]

lemma dispatch_meta_noInstance (context : InstanceContext) (vfs : Vfs)
    (p : Path) (m : Metadata) (hv : vfs p = .ok (some m))
    (hd : m.is_dir = false)
    (hmeta : file_name_ends_with p ".meta.json" = true) :
    dispatch context vfs p = .ok .noInstance := by
  obtain ⟨n, hn⟩ := fileName_some_of_ends hmeta
  have hlua : file_name_ends_with p ".lua" = false :=
    ends_excl hmeta (by decide) (by decide)
  have hluau : file_name_ends_with p ".luau" = false :=
    ends_excl hmeta (by decide) (by decide)
  have hproj : file_name_ends_with p ".project.json" = false :=
    ends_excl hmeta (by decide) (by decide)
  have hmodel : file_name_ends_with p ".model.json" = false :=
    ends_excl hmeta (by decide) (by decide)
  have hs : script_name p = none := script_name_none_of_not_ends hlua hluau
  simp [dispatch, hv, hd, hn, hs, hproj, hmodel, hmeta]

/-- C2: on a filesystem whose probes never fail, get_init_path returns the
first existing candidate of the fixed ordered list initCandidates (project
file, module script .luau then .lua, server script .luau then .lua, client
script .luau then .lua, csv init); in particular a directory holding the
composite-project file resolves to it. -/
theorem getInitPath_fixed_order (vfs : Vfs) (pf : Path → Option Metadata)
    (p : Path) (h : ∀ q, vfs q = .ok (pf q)) :
    getInitPath vfs p =
      .ok ((initCandidates.find?
        (fun c => (pf (pathJoin p c)).isSome)).map (pathJoin p))
    ∧ (∀ m, pf (pathJoin p "default.project.json") = some m →
        getInitPath vfs p = .ok (some (pathJoin p "default.project.json"))) := by
  refine ⟨getInitPath_find vfs pf p h, ?_⟩
  intro m hm
  rw [getInitPath_find vfs pf p h]
  simp [initCandidates, List.find?, hm]

/-- Metadata map for a directory holding both a composite-project file and
an init script. -/
def pfC2 : Path → Option Metadata :=
  fun q =>
    if q = ["d", "default.project.json"] then some mFile
    else if q = ["d", "init.lua"] then some mFile
    else none

/-- Witness for the C2 theorem at a concrete directory. -/
theorem getInitPath_fixed_order_witness :
    getInitPath (vfsOf pfC2) ["d"] =
      .ok ((initCandidates.find?
        (fun c => (pfC2 (pathJoin ["d"] c)).isSome)).map (pathJoin ["d"]))
    ∧ getInitPath (vfsOf pfC2) ["d"] =
      .ok (some (pathJoin ["d"] "default.project.json")) :=
  ⟨(getInitPath_fixed_order (vfsOf pfC2) pfC2 ["d"] (fun _ => rfl)).1,
   (getInitPath_fixed_order (vfsOf pfC2) pfC2 ["d"] (fun _ => rfl)).2
     mFile rfl⟩

/-- C3: with no override set for the path, get_transformer equals the first
match against the ordered suffix table (most-specific-first), and a name
ending in the server-script suffix yields the server variant, never the
generic module variant. -/
theorem getTransformer_suffix_precedence (context : InstanceContext)
    (p : Path) (h : context p = none) :
    getTransformer context p = selectBySuffix p
    ∧ (file_name_ends_with p ".server.lua" = true →
        getTransformer context p = some Transformer.LuauServer
        ∧ getTransformer context p ≠ some Transformer.LuauModule) := by
  constructor
  · simp only [getTransformer, h, selectBySuffix, suffixTable, firstMatch]
    cases h1 : file_name_ends_with p ".server.lua" with
    | true => simp [h1]
    | false =>
    cases h2 : file_name_ends_with p ".server.luau" with
    | true => simp [h1, h2]
    | false =>
    cases h3 : file_name_ends_with p ".client.lua" with
    | true => simp [h1, h2, h3]
    | false =>
    cases h4 : file_name_ends_with p ".client.luau" with
    | true => simp [h1, h2, h3, h4]
    | false =>
    cases h5 : file_name_ends_with p ".lua" with
    | true => simp [h1, h2, h3, h4, h5]
    | false =>
    cases h6 : file_name_ends_with p ".luau" with
    | true => simp [h1, h2, h3, h4, h5, h6]
    | false =>
    cases h7 : file_name_ends_with p ".project.json" with
    | true => simp [h1, h2, h3, h4, h5, h6, h7]
    | false =>
    cases h8 : file_name_ends_with p ".model.json" with
    | true => simp [h1, h2, h3, h4, h5, h6, h7, h8]
    | false =>
    cases h9 : file_name_ends_with p ".meta.json" with
    | true => simp [h1, h2, h3, h4, h5, h6, h7, h8, h9]
    | false =>
    cases h10 : file_name_ends_with p ".json" with
    | true => simp [h1, h2, h3, h4, h5, h6, h7, h8, h9, h10]
    | false =>
    cases h11 : file_name_ends_with p ".toml" with
    | true => simp [h1, h2, h3, h4, h5, h6, h7, h8, h9, h10, h11]
    | false =>
    cases h12 : file_name_ends_with p ".csv" with
    | true => simp [h1, h2, h3, h4, h5, h6, h7, h8, h9, h10, h11, h12]
    | false =>
    cases h13 : file_name_ends_with p ".txt" with
    | true => simp [h1, h2, h3, h4, h5, h6, h7, h8, h9, h10, h11, h12, h13]
    | false =>
    cases h14 : file_name_ends_with p ".rbxmx" with
    | true =>
      simp [h1, h2, h3, h4, h5, h6, h7, h8, h9, h10, h11, h12, h13, h14]
    | false =>
    cases h15 : file_name_ends_with p ".rbxm" with
    | true =>
      simp [h1, h2, h3, h4, h5, h6, h7, h8, h9, h10, h11, h12, h13, h14, h15]
    | false =>
      simp [h1, h2, h3, h4, h5, h6, h7, h8, h9, h10, h11, h12, h13, h14, h15]
  · intro hs
    simp [getTransformer, h, hs]

/-- Witness for the C3 theorem at a concrete server-script name. -/
theorem getTransformer_suffix_precedence_witness :
    getTransformer ctxNone ["foo.server.lua"] = selectBySuffix ["foo.server.lua"]
    ∧ (getTransformer ctxNone ["foo.server.lua"] = some Transformer.LuauServer
        ∧ getTransformer ctxNone ["foo.server.lua"] ≠
            some Transformer.LuauModule) :=
  ⟨(getTransformer_suffix_precedence ctxNone ["foo.server.lua"] rfl).1,
   (getTransformer_suffix_precedence ctxNone ["foo.server.lua"] rfl).2
     (by decide)⟩

/-- C6: an absent path (probe returns ok none) yields the normal no-instance
outcome from the dispatch engine, never an error; and on a filesystem whose
probes never fail, get_init_path never fails either - an absent candidate
only means the next one is tried. -/
theorem absent_folded_to_noInstance (context : InstanceContext) (vfs : Vfs)
    (pf : Path → Option Metadata) (p : Path) :
    (vfs p = .ok none → dispatch context vfs p = .ok .noInstance)
    ∧ ((∀ q, vfs q = .ok (pf q)) → ∃ r, getInitPath vfs p = .ok r) := by
  constructor
  · intro h
    simp [dispatch, h]
  · intro h
    exact ⟨_, getInitPath_find vfs pf p h⟩

/-- Witness for the C6 theorem on an empty filesystem. -/
theorem absent_folded_to_noInstance_witness :
    dispatch ctxNone (vfsOf (fun _ => none)) ["missing.lua"] = .ok .noInstance
    ∧ ∃ r, getInitPath (vfsOf (fun _ => none)) ["missing.lua"] = .ok r :=
  ⟨(absent_folded_to_noInstance ctxNone (vfsOf (fun _ => none))
      (fun _ => none) ["missing.lua"]).1 rfl,
   (absent_folded_to_noInstance ctxNone (vfsOf (fun _ => none))
      (fun _ => none) ["missing.lua"]).2 (fun _ => rfl)⟩

/-- C9: resolving the init candidate of a directory and then the transformer
of that candidate is deterministic: two resolutions against the same
filesystem and override context agree on the candidate and on the
transformer variant. -/
theorem resolve_roundtrip_deterministic (context : InstanceContext)
    (vfs : Vfs) (p q1 q2 : Path) (h1 : getInitPath vfs p = .ok (some q1))
    (h2 : getInitPath vfs p = .ok (some q2)) :
    q1 = q2 ∧ getTransformer context q1 = getTransformer context q2 := by
  have h := h1.symm.trans h2
  simp only [Except.ok.injEq, Option.some.injEq] at h
  exact ⟨h, by rw [h]⟩

/-- Witness for the C9 theorem at a concrete directory. -/
theorem resolve_roundtrip_deterministic_witness :
    (["d", "init.lua"] : Path) = ["d", "init.lua"]
    ∧ getTransformer ctxNone ["d", "init.lua"] =
        getTransformer ctxNone ["d", "init.lua"] :=
  resolve_roundtrip_deterministic ctxNone
    (vfsOf (pfSingle ["d", "init.lua"] mFile)) ["d"]
    ["d", "init.lua"] ["d", "init.lua"] rfl rfl

/-- C7: a file whose name ends in the metadata-sidecar suffix and has no
override set yields none from the transformer selector, and the dispatch
engine resolves the file to no instance. -/
theorem meta_sidecar_noInstance (context : InstanceContext) (vfs : Vfs)
    (p : Path) (m : Metadata) (hover : context p = none)
    (hmeta : file_name_ends_with p ".meta.json" = true)
    (hv : vfs p = .ok (some m)) (hd : m.is_dir = false) :
    getTransformer context p = none
    ∧ dispatch context vfs p = .ok .noInstance := by
  constructor
  · have hsl : file_name_ends_with p ".server.lua" = false :=
      ends_excl hmeta (by decide) (by decide)
    have hslu : file_name_ends_with p ".server.luau" = false :=
      ends_excl hmeta (by decide) (by decide)
    have hcl : file_name_ends_with p ".client.lua" = false :=
      ends_excl hmeta (by decide) (by decide)
    have hclu : file_name_ends_with p ".client.luau" = false :=
      ends_excl hmeta (by decide) (by decide)
    have hlua : file_name_ends_with p ".lua" = false :=
      ends_excl hmeta (by decide) (by decide)
    have hluau : file_name_ends_with p ".luau" = false :=
      ends_excl hmeta (by decide) (by decide)
    have hproj : file_name_ends_with p ".project.json" = false :=
      ends_excl hmeta (by decide) (by decide)
    have hmodel : file_name_ends_with p ".model.json" = false :=
      ends_excl hmeta (by decide) (by decide)
    simp [getTransformer, hover, hsl, hslu, hcl, hclu, hlua, hluau, hproj,
      hmodel, hmeta]
  · exact dispatch_meta_noInstance context vfs p m hv hd hmeta

/-- Witness for the C7 theorem at a concrete sidecar file. -/
theorem meta_sidecar_noInstance_witness :
    getTransformer ctxNone ["settings.meta.json"] = none
    ∧ dispatch ctxNone (vfsOf (pfSingle ["settings.meta.json"] mFile))
        ["settings.meta.json"] = .ok .noInstance :=
  meta_sidecar_noInstance ctxNone
    (vfsOf (pfSingle ["settings.meta.json"] mFile)) ["settings.meta.json"]
    mFile rfl (by decide) rfl rfl

/-- C1 counterexample: a standalone file whose override entry is set to the
plain-text transformer but whose name ends in .meta.json is resolved by the
dispatch engine to no instance, not to the forced transformer: the
standalone-file dispatch path tests suffixes before consulting the
override. -/
theorem override_before_suffix_counterexample :
    (ctxSingle ["foo.meta.json"] Transformer.Plain) ["foo.meta.json"] =
      some Transformer.Plain
    ∧ dispatch (ctxSingle ["foo.meta.json"] Transformer.Plain)
        (vfsOf (pfSingle ["foo.meta.json"] mFile)) ["foo.meta.json"] =
      .ok .noInstance
    ∧ ∀ c : ExtCall,
        dispatch (ctxSingle ["foo.meta.json"] Transformer.Plain)
          (vfsOf (pfSingle ["foo.meta.json"] mFile)) ["foo.meta.json"] ≠
        .ok (.call c) := by
  refine ⟨rfl, rfl, ?_⟩
  intro c h
  exact Outcome.noConfusion (Except.ok.inj h)

/-- C1 amended: the transformer selector consults the override before any
suffix inference, so a forced transformer wins there even over the
metadata-suppression rule, and the directory-init dispatch path honors an
override set on the init candidate; but the standalone-file dispatch path
runs hard-coded suffix checks before the selector, so a standalone file
ending in .meta.json yields no instance regardless of its override
entry. -/
theorem override_before_suffix_amended :
    (∀ (context : InstanceContext) (p : Path) (t : Transformer),
        context p = some t → getTransformer context p = some t)
    ∧ (∀ (context : InstanceContext) (vfs : Vfs) (p q : Path) (m : Metadata),
        vfs p = .ok (some m) → m.is_dir = true →
        getInitPath vfs p = .ok (some q) →
        context q = some Transformer.Project →
        dispatch context vfs p = .ok (.call (.project q)))
    ∧ (∀ (context : InstanceContext) (vfs : Vfs) (p : Path) (m : Metadata),
        vfs p = .ok (some m) → m.is_dir = false →
        file_name_ends_with p ".meta.json" = true →
        dispatch context vfs p = .ok .noInstance) := by
  refine ⟨fun context p t h => getTransformer_of_override h, ?_, ?_⟩
  · intro context vfs p q m hv hd hq hover
    simp [dispatch, hv, hd, hq, getTransformer_of_override hover]
  · intro context vfs p m hv hd hmeta
    exact dispatch_meta_noInstance context vfs p m hv hd hmeta

/-- Override context and filesystem for the C1 amended witness. -/
def ctxC1 : InstanceContext :=
  ctxSingle ["d", "init.lua"] Transformer.Project

/-- Filesystem with a directory d containing an init script. -/
def pfDirInit : Path → Option Metadata :=
  fun q =>
    if q = ["d"] then some mDir
    else if q = ["d", "init.lua"] then some mFile
    else none

/-- Witness for the C1 amended theorem at concrete inputs. -/
theorem override_before_suffix_amended_witness :
    getTransformer (ctxSingle ["x.meta.json"] Transformer.Plain)
      ["x.meta.json"] = some Transformer.Plain
    ∧ dispatch ctxC1 (vfsOf pfDirInit) ["d"] =
        .ok (.call (.project ["d", "init.lua"]))
    ∧ dispatch ctxNone (vfsOf (pfSingle ["x.meta.json"] mFile))
        ["x.meta.json"] = .ok .noInstance :=
  ⟨(override_before_suffix_amended).1 (ctxSingle ["x.meta.json"]
      Transformer.Plain) ["x.meta.json"] Transformer.Plain rfl,
   (override_before_suffix_amended).2.1 ctxC1 (vfsOf pfDirInit) ["d"]
     ["d", "init.lua"] mDir rfl rfl rfl rfl,
   (override_before_suffix_amended).2.2 ctxNone
     (vfsOf (pfSingle ["x.meta.json"] mFile)) ["x.meta.json"] mFile rfl rfl
     (by decide)⟩

/-- C4: a standalone file whose base name after stripping a recognized
script extension is one of the reserved init names, or whose base name
after stripping the csv extension is init, is resolved by the dispatch
engine to no instance. -/
theorem reserved_init_names_noInstance :
    (∀ (context : InstanceContext) (vfs : Vfs) (p : Path) (m : Metadata)
        (n : String),
        vfs p = .ok (some m) → m.is_dir = false →
        script_name p = some n →
        (n = "init" ∨ n = "init.client" ∨ n = "init.server") →
        dispatch context vfs p = .ok .noInstance)
    ∧ (∀ (context : InstanceContext) (vfs : Vfs) (p : Path) (m : Metadata),
        vfs p = .ok (some m) → m.is_dir = false →
        csv_name p = some "init" →
        dispatch context vfs p = .ok .noInstance) := by
  constructor
  · intro context vfs p m n hv hd hs hres
    obtain ⟨fn, hfn⟩ : ∃ fn, fileName p = some fn := by
      cases he : file_name_trim_end p ".lua" with
      | some m2 => exact fileName_some_of_ends (trim_some_ends he)
      | none =>
        have h2 : file_name_trim_end p ".luau" = some n := by
          simpa [script_name, he] using hs
        exact fileName_some_of_ends (trim_some_ends h2)
    rcases hres with rfl | rfl | rfl <;> simp [dispatch, hv, hd, hfn, hs]
  · intro context vfs p m hv hd hcsv
    have hcsvEnds : file_name_ends_with p ".csv" = true := trim_some_ends hcsv
    obtain ⟨fn, hfn⟩ := fileName_some_of_ends hcsvEnds
    have hlua : file_name_ends_with p ".lua" = false :=
      ends_excl hcsvEnds (by decide) (by decide)
    have hluau : file_name_ends_with p ".luau" = false :=
      ends_excl hcsvEnds (by decide) (by decide)
    have hproj : file_name_ends_with p ".project.json" = false :=
      ends_excl hcsvEnds (by decide) (by decide)
    have hmodel : file_name_ends_with p ".model.json" = false :=
      ends_excl hcsvEnds (by decide) (by decide)
    have hmeta : file_name_ends_with p ".meta.json" = false :=
      ends_excl hcsvEnds (by decide) (by decide)
    have hjson : file_name_ends_with p ".json" = false :=
      ends_excl hcsvEnds (by decide) (by decide)
    have htoml : file_name_ends_with p ".toml" = false :=
      ends_excl hcsvEnds (by decide) (by decide)
    have hs : script_name p = none := script_name_none_of_not_ends hlua hluau
    simp [dispatch, hv, hd, hfn, hs, hproj, hmodel, hmeta, hjson, htoml, hcsv]

/-- Witness for the C4 theorem at the files init.lua and init.csv. -/
theorem reserved_init_names_noInstance_witness :
    dispatch ctxNone (vfsOf (pfSingle ["init.lua"] mFile)) ["init.lua"] =
      .ok .noInstance
    ∧ dispatch ctxNone (vfsOf (pfSingle ["init.csv"] mFile)) ["init.csv"] =
      .ok .noInstance :=
  ⟨reserved_init_names_noInstance.1 ctxNone
     (vfsOf (pfSingle ["init.lua"] mFile)) ["init.lua"] mFile "init" rfl rfl
     (by decide) (Or.inl rfl),
   reserved_init_names_noInstance.2 ctxNone
     (vfsOf (pfSingle ["init.csv"] mFile)) ["init.csv"] mFile rfl rfl
     (by decide)⟩

/-- C5 counterexample: a standalone file with a recognized suffix and an
override entry pointing at an unrecognized custom identifier is dispatched
to the plain-text transformer, not to a fatal error: the hard-coded suffix
checks of the standalone-file path run before the override is
consulted. -/
theorem unknown_override_counterexample :
    (ctxSingle ["foo.txt"] (Transformer.Other "custom")) ["foo.txt"] =
      some (Transformer.Other "custom")
    ∧ dispatch (ctxSingle ["foo.txt"] (Transformer.Other "custom"))
        (vfsOf (pfSingle ["foo.txt"] mFile)) ["foo.txt"] =
      .ok (.call (.txt ["foo.txt"])) :=
  ⟨rfl, rfl⟩

/-- C5 amended: an override resolving to the Other variant is a fatal error
naming the identifier on the directory-init path whenever the transformer of the
init candidate resolves to it, and on the standalone-file path
whenever the file name matches none of the hard-coded suffix checks that
run before the transformer selector is consulted. -/
theorem unknown_override_fatal_amended :
    (∀ (context : InstanceContext) (vfs : Vfs) (p q : Path) (m : Metadata)
        (s : String),
        vfs p = .ok (some m) → m.is_dir = true →
        getInitPath vfs p = .ok (some q) →
        getTransformer context q = some (Transformer.Other s) →
        dispatch context vfs p = .error ("Unknown rojo type: " ++ s))
    ∧ (∀ (context : InstanceContext) (vfs : Vfs) (p : Path) (m : Metadata)
        (s n : String),
        vfs p = .ok (some m) → m.is_dir = false →
        fileName p = some n →
        script_name p = none →
        file_name_ends_with p ".project.json" = false →
        file_name_ends_with p ".model.json" = false →
        file_name_ends_with p ".meta.json" = false →
        file_name_ends_with p ".json" = false →
        file_name_ends_with p ".toml" = false →
        csv_name p = none →
        file_name_ends_with p ".txt" = false →
        file_name_ends_with p ".rbxmx" = false →
        file_name_ends_with p ".rbxm" = false →
        context p = some (Transformer.Other s) →
        dispatch context vfs p = .error ("Unknown rojo type: " ++ s)) := by
  constructor
  · intro context vfs p q m s hv hd hq ht
    simp [dispatch, hv, hd, hq, ht]
  · intro context vfs p m s n hv hd hn hs h1 h2 h3 h4 h5 h6 h7 h8 h9 hover
    simp [dispatch, hv, hd, hn, hs, h1, h2, h3, h4, h5, h6, h7, h8, h9,
      getTransformer_of_override hover]

/-- Filesystem with a directory d whose init candidate carries an Other
override. -/
def ctxC5dir : InstanceContext :=
  ctxSingle ["d", "init.lua"] (Transformer.Other "x")

/-- Witness for the C5 amended theorem at concrete inputs. -/
theorem unknown_override_fatal_amended_witness :
    dispatch ctxC5dir (vfsOf pfDirInit) ["d"] =
      .error ("Unknown rojo type: " ++ "x")
    ∧ dispatch (ctxSingle ["foo.xyz"] (Transformer.Other "y"))
        (vfsOf (pfSingle ["foo.xyz"] mFile)) ["foo.xyz"] =
      .error ("Unknown rojo type: " ++ "y") :=
  ⟨unknown_override_fatal_amended.1 ctxC5dir (vfsOf pfDirInit) ["d"]
     ["d", "init.lua"] mDir "x" rfl rfl rfl (by decide),
   unknown_override_fatal_amended.2 (ctxSingle ["foo.xyz"]
       (Transformer.Other "y"))
     (vfsOf (pfSingle ["foo.xyz"] mFile)) ["foo.xyz"] mFile "y" "foo.xyz"
     rfl rfl rfl (by decide) (by decide) (by decide) (by decide) (by decide)
     (by decide) (by decide) (by decide) (by decide) (by decide) rfl⟩

/-- A transformer interpretation reporting an empty result for every
call. -/
def interpEmpty : ExtCall → Except String (Option Nat) :=
  fun _ => .ok none

/-- C8 counterexample: the no-instance outcome of the engine and a
forwarded transformer-reported empty result produce the same returned
value, ok none, so the two are not distinguishable in the value the caller
receives: here a sidecar file never reaching a transformer and a
plain-text file whose transformer reports empty return equal results. -/
theorem noInstance_value_indistinguishable_counterexample :
    dispatch ctxNone (vfsOf (pfSingle ["a.meta.json"] mFile)) ["a.meta.json"]
      = .ok .noInstance
    ∧ dispatch ctxNone (vfsOf (pfSingle ["b.txt"] mFile)) ["b.txt"]
      = .ok (.call (.txt ["b.txt"]))
    ∧ interpEmpty (.txt ["b.txt"]) = .ok none
    ∧ run interpEmpty ctxNone (vfsOf (pfSingle ["a.meta.json"] mFile))
        ["a.meta.json"]
      = run interpEmpty ctxNone (vfsOf (pfSingle ["b.txt"] mFile)) ["b.txt"] :=
  ⟨rfl, rfl, rfl, rfl⟩

/-- C8 amended: every successful dispatch decision carries at most one
external transformer call, and both the no-instance outcome of the engine
and a forwarded transformer-reported empty result are returned as ok none,
so they are distinguished only by whether a transformer call was
dispatched, not by the returned value. -/
theorem dispatch_single_call_amended :
    (∀ (context : InstanceContext) (vfs : Vfs) (p : Path) (o : Outcome),
        dispatch context vfs p = .ok o → (outcomeCalls o).length ≤ 1)
    ∧ (∀ {α : Type} (interp : ExtCall → Except String (Option α))
        (context : InstanceContext) (vfs : Vfs) (p : Path),
        dispatch context vfs p = .ok .noInstance →
        run interp context vfs p = .ok none)
    ∧ (∀ {α : Type} (interp : ExtCall → Except String (Option α))
        (context : InstanceContext) (vfs : Vfs) (p : Path) (c : ExtCall),
        dispatch context vfs p = .ok (.call c) → interp c = .ok none →
        run interp context vfs p = .ok none) := by
  refine ⟨?_, ?_, ?_⟩
  · intro context vfs p o _
    cases o <;> simp [outcomeCalls]
  · intro α interp context vfs p h
    simp [run, h]
  · intro α interp context vfs p c h hc
    simp [run, h, hc]

/-- Witness for the C8 amended theorem at concrete inputs. -/
theorem dispatch_single_call_amended_witness :
    (outcomeCalls Outcome.noInstance).length ≤ 1
    ∧ run interpEmpty ctxNone (vfsOf (pfSingle ["a.meta.json"] mFile))
        ["a.meta.json"] = .ok none
    ∧ run interpEmpty ctxNone (vfsOf (pfSingle ["b.txt"] mFile)) ["b.txt"]
        = .ok none :=
  ⟨dispatch_single_call_amended.1 ctxNone
     (vfsOf (pfSingle ["a.meta.json"] mFile)) ["a.meta.json"]
     Outcome.noInstance rfl,
   dispatch_single_call_amended.2.1 interpEmpty ctxNone
     (vfsOf (pfSingle ["a.meta.json"] mFile)) ["a.meta.json"] rfl,
   dispatch_single_call_amended.2.2 interpEmpty ctxNone
     (vfsOf (pfSingle ["b.txt"] mFile)) ["b.txt"] (.txt ["b.txt"]) rfl rfl⟩

/-- C10: a standalone file matching no recognized suffix whose override
entry is the Ignore variant yields no instance, without any transformer
call; and on the directory-init path, a resolved candidate transformer
that is neither init-flavored (project, module, server, client, csv) nor
the Other variant does not stop resolution but falls through to the
generic directory aggregation. -/
theorem ignore_and_dir_fallthrough :
    (∀ (context : InstanceContext) (vfs : Vfs) (p : Path) (m : Metadata)
        (n : String),
        vfs p = .ok (some m) → m.is_dir = false →
        fileName p = some n →
        script_name p = none →
        file_name_ends_with p ".project.json" = false →
        file_name_ends_with p ".model.json" = false →
        file_name_ends_with p ".meta.json" = false →
        file_name_ends_with p ".json" = false →
        file_name_ends_with p ".toml" = false →
        csv_name p = none →
        file_name_ends_with p ".txt" = false →
        file_name_ends_with p ".rbxmx" = false →
        file_name_ends_with p ".rbxm" = false →
        context p = some Transformer.Ignore →
        dispatch context vfs p = .ok .noInstance)
    ∧ (∀ (context : InstanceContext) (vfs : Vfs) (p q : Path) (m : Metadata)
        (t : Transformer),
        vfs p = .ok (some m) → m.is_dir = true →
        getInitPath vfs p = .ok (some q) →
        getTransformer context q = some t →
        t ≠ Transformer.Project → t ≠ Transformer.LuauModule →
        t ≠ Transformer.LuauServer → t ≠ Transformer.LuauClient →
        t ≠ Transformer.Csv → (∀ s, t ≠ Transformer.Other s) →
        dispatch context vfs p = .ok (.call (.dir p))) := by
  constructor
  · intro context vfs p m n hv hd hn hs h1 h2 h3 h4 h5 h6 h7 h8 h9 hover
    simp [dispatch, hv, hd, hn, hs, h1, h2, h3, h4, h5, h6, h7, h8, h9,
      getTransformer_of_override hover]
  · intro context vfs p q m t hv hd hq ht e1 e2 e3 e4 e5 e6
    cases t with
    | Project => exact absurd rfl e1
    | LuauModule => exact absurd rfl e2
    | LuauServer => exact absurd rfl e3
    | LuauClient => exact absurd rfl e4
    | Csv => exact absurd rfl e5
    | Other s => exact absurd rfl (e6 s)
    | Json => simp [dispatch, hv, hd, hq, ht]
    | JsonModel => simp [dispatch, hv, hd, hq, ht]
    | Toml => simp [dispatch, hv, hd, hq, ht]
    | Plain => simp [dispatch, hv, hd, hq, ht]
    | Rbxmx => simp [dispatch, hv, hd, hq, ht]
    | Rbxm => simp [dispatch, hv, hd, hq, ht]
    | Ignore => simp [dispatch, hv, hd, hq, ht]

/-- Override context forcing the structured-data transformer on a
init candidate of a directory, for the C10 witness. -/
def ctxC10dir : InstanceContext :=
  ctxSingle ["d", "init.lua"] Transformer.Json

/-- Witness for the C10 theorem at concrete inputs. -/
theorem ignore_and_dir_fallthrough_witness :
    dispatch (ctxSingle ["weird.xyz"] Transformer.Ignore)
      (vfsOf (pfSingle ["weird.xyz"] mFile)) ["weird.xyz"] = .ok .noInstance
    ∧ dispatch ctxC10dir (vfsOf pfDirInit) ["d"] = .ok (.call (.dir ["d"])) :=
  ⟨ignore_and_dir_fallthrough.1 (ctxSingle ["weird.xyz"] Transformer.Ignore)
     (vfsOf (pfSingle ["weird.xyz"] mFile)) ["weird.xyz"] mFile "weird.xyz"
     rfl rfl rfl (by decide) (by decide) (by decide) (by decide) (by decide)
     (by decide) (by decide) (by decide) (by decide) (by decide) rfl,
   ignore_and_dir_fallthrough.2 ctxC10dir (vfsOf pfDirInit) ["d"]
     ["d", "init.lua"] mDir Transformer.Json rfl rfl rfl (by decide)
     (by decide) (by decide) (by decide) (by decide) (by decide)
     (fun s => by simp)⟩

end Rojo
